import Mathlib

/-!
# HexCraft (rayzink/hexart) — verification of the hex-grid editing core

Shallow embedding of the two variants of the application:

* the 2D hex pixel-art editor (`src/unnamed/part_001`): sparse cell store
  `hexCells`, flood fill, snapshot history, pointer-down editing session;
* the 3D voxel hex builder (`src/app.js`): block store `blocks`, parallel
  render-handle map `blockMeshes`, snapshot history, placement logic.

Modelling conventions:

* JS `Map` objects keyed by the strings produced from integer coordinates
  (`"col,row"`, `"x,y,z"`) are modelled as functions from the integer tuple to
  `Option payload`; the string key constructors are injective on integer
  tuples, so the tuple itself is used as the key.
* `undefined` results of `Map.get` are `none`; JS `===` between a possibly
  `undefined` string and a string is equality on `Option String`.
* Rendering, audio and DOM work are effect-free w.r.t. the modelled state and
  are dropped; a Three.js mesh is abstracted to the material index recorded in
  its `userData` (only the key set of `blockMeshes` is relevant to the claims).
* Geometry (`hexToPixel`/`pixelToHex`, `hexToWorld`/`worldToHex`) is modelled
  over `ℝ`, with `Math.round` as `jsRound` (round half towards `+∞`, the JS
  semantics).
-/

/-- JS truthiness of a possibly-`undefined` string (`undefined` and the empty
string are falsy). -/
def jsTruthy : Option String → Bool
  | none => false
  | some s => !(s == "")

/-- JS `Math.round`: round half towards positive infinity. -/
noncomputable def jsRound (x : ℝ) : ℤ := ⌊x + 1 / 2⌋

/-! ## 2D variant (`src/unnamed/part_001`) -/

/-- A 2D grid coordinate `(col, row)`; stands for the store key `"col,row"`. -/
abbrev Key2 := ℤ × ℤ

/-- The 2D sparse Cell Store `STATE.hexCells`: key to color, `none` = absent. -/
abbrev Store2 := Key2 → Option String

/-- `CONFIG.gridSize` of the 2D variant (default 20). -/
def gridSize2d : ℤ := 20

/-- `CONFIG.maxHistorySteps` of the 2D variant. -/
def maxHistorySteps : ℕ := 50

/-- `HexGrid.getNeighbors(col, row)` (part_001, lines 249-263): the six
parity-adjusted neighbours, filtered to `[0, gridSize)` in both axes. -/
def getNeighbors2d (g : ℤ) (c : Key2) : List Key2 :=
  let isOddCol := decide (c.1 % 2 ≠ 0)
  let ns : List Key2 :=
    [ (c.1 + 1, if isOddCol then c.2 else c.2 - 1),
      (c.1 + 1, if isOddCol then c.2 + 1 else c.2),
      (c.1 - 1, if isOddCol then c.2 else c.2 - 1),
      (c.1 - 1, if isOddCol then c.2 + 1 else c.2),
      (c.1, c.2 - 1),
      (c.1, c.2 + 1) ]
  ns.filter (fun n => decide (0 ≤ n.1 ∧ n.1 < g ∧ 0 ≤ n.2 ∧ n.2 < g))

/-- The `while (stack.length > 0 && filled < 1000)` loop of `floodFill`
(part_001, lines 420-444), with the mutable locals made explicit.
`fuel` is a recursion bound only: every loop iteration pops one entry, at most
6 entries are pushed per fill and the `filled < 1000` guard allows at most
1000 fills, so the loop runs at most `1 + 6 * 1000` iterations; the top-level
entry point supplies fuel `7001`, which is never exhausted. -/
def floodFillLoop (g : ℤ) (targetColor fillColor : Option String) :
    ℕ → Store2 → List Key2 → List Key2 → ℕ → Store2
  | 0, s, _, _, _ => s
  | _ + 1, s, _, [], _ => s
  | fuel + 1, s, visited, c :: rest, filled =>
    if 1000 ≤ filled then s
    else if c ∈ visited then
      floodFillLoop g targetColor fillColor fuel s visited rest filled
    else
      let visited' := c :: visited
      if s c ≠ targetColor then
        floodFillLoop g targetColor fillColor fuel s visited' rest filled
      else
        let s' : Store2 :=
          if jsTruthy fillColor then fun k => if k = c then fillColor else s k
          else fun k => if k = c then none else s k
        let pushes := ((getNeighbors2d g c).filter (fun n => decide (¬ n ∈ visited'))).reverse
        floodFillLoop g targetColor fillColor fuel s' visited' (pushes ++ rest) (filled + 1)

/-- `floodFill(startCol, startRow, targetColor, fillColor)` (part_001, lines
413-449).  Mutation of `STATE.hexCells` is returned as the new store. -/
def floodFill2d (g : ℤ) (s : Store2) (startCol startRow : ℤ)
    (targetColor fillColor : Option String) : Store2 :=
  if targetColor = fillColor then s
  else floodFillLoop g targetColor fillColor 7001 s [] [(startCol, startRow)] 0

/-- The 2D tools dispatched on `STATE.currentTool`. -/
inductive Tool
  | draw
  | erase
  | fill
deriving DecidableEq

/-- The parts of the 2D `STATE` object the editing/history core touches. -/
structure State2 where
  hexCells : Store2
  history : List Store2
  historyIndex : ℤ
  currentTool : Tool
  currentColor : String
  isDrawing : Bool

/-- 2D `saveState()` (part_001, lines 455-473): prune the redo branch, push a
snapshot of the current store, then either evict the oldest entry (over the
cap, leaving `historyIndex` unchanged) or advance `historyIndex`.
`historyIndex ≥ -1` always holds in the app, so `slice(0, historyIndex + 1)`
is `take (historyIndex + 1).toNat`. -/
def saveState2d (st : State2) : State2 :=
  let hist :=
    if st.historyIndex < (st.history.length : ℤ) - 1 then
      st.history.take (st.historyIndex + 1).toNat
    else st.history
  let hist := hist ++ [st.hexCells]
  if maxHistorySteps < hist.length then
    { st with history := hist.drop 1 }
  else
    { st with history := hist, historyIndex := st.historyIndex + 1 }

/-- `drawAtPosition(x, y)` (part_001, lines 380-411) after its
`hexGrid.pixelToHex` call: the bounds check and the tool dispatch, taking the
already-resolved hex coordinate.  (The pixel-to-hex resolution itself is
modelled separately as `pixelToHex2d`.) -/
def drawAtHex (hex : Key2) (st : State2) : State2 :=
  if hex.1 < 0 ∨ gridSize2d ≤ hex.1 ∨ hex.2 < 0 ∨ gridSize2d ≤ hex.2 then st
  else
    let currentCellColor := st.hexCells hex
    match st.currentTool with
    | Tool.draw =>
      if currentCellColor ≠ some st.currentColor then
        { st with hexCells := fun k => if k = hex then some st.currentColor else st.hexCells k }
      else st
    | Tool.erase =>
      if (st.hexCells hex).isSome then
        { st with hexCells := fun k => if k = hex then none else st.hexCells k }
      else st
    | Tool.fill =>
      let filledCells :=
        floodFill2d gridSize2d st.hexCells hex.1 hex.2 currentCellColor (some st.currentColor)
      { st with hexCells := filledCells }

/-- `handleMouseDown` (part_001, lines 821-833), plain left-button branch (no
`altKey`): set the drawing flag, `saveState()`, then apply the tool at the
resolved hex.  The middle-click/alt pan branch touches neither the store nor
the history. -/
def mouseDownLeft (hex : Key2) (st : State2) : State2 :=
  drawAtHex hex (saveState2d { st with isDrawing := true })

/-- 2D `undo()` (part_001, lines 475-483). -/
def undo2d (st : State2) : State2 :=
  if 0 < st.historyIndex then
    { st with historyIndex := st.historyIndex - 1,
              hexCells := st.history.getD (st.historyIndex - 1).toNat (fun _ => none) }
  else st

/-- 2D `redo()` (part_001, lines 485-493). -/
def redo2d (st : State2) : State2 :=
  if st.historyIndex < (st.history.length : ℤ) - 1 then
    { st with historyIndex := st.historyIndex + 1,
              hexCells := st.history.getD (st.historyIndex + 1).toNat (fun _ => none) }
  else st

/-- The 2D session state right after `init()` (part_001, lines 1113-1134):
empty store, one initial `saveState()`, draw tool, initial color. -/
def initState2d : State2 :=
  saveState2d
    { hexCells := fun _ => none, history := [], historyIndex := -1,
      currentTool := Tool.draw, currentColor := "#6366f1", isDrawing := false }

/-- Drive the 2D History Manager: for each store in `L`, make it the current
store and call `saveState()` (models a sequence of completed edits, each one
followed by its `record`). -/
def applyRecords2d (L : List Store2) (st : State2) : State2 :=
  L.foldl (fun acc snap => saveState2d { acc with hexCells := snap }) st

/-! ## 3D variant (`src/app.js`) -/

/-- A 3D block coordinate `(q, r, y)`; stands for `getBlockKey(q, r, y)`. -/
abbrev Key3 := ℤ × ℤ × ℤ

/-- `STATE.blocks` / `blockMeshes`: key to material index, `none` = absent. -/
abbrev Store3 := Key3 → Option ℕ

/-- `CONFIG.maxHeight` (app.js line 14). -/
def maxHeight3d : ℤ := 20

/-- The parts of the 3D `STATE` object (plus the module-level `blockMeshes`
map) that the block/history core touches. -/
structure State3 where
  blocks : Store3
  blockMeshes : Store3
  history : List Store3
  historyIndex : ℤ
  currentMaterial : ℕ
  hoveredBlock : Option Key3

/-- `addBlock(q, r, y, materialIndex)` (app.js, lines 259-291): no-op returning
`false` on an occupied key, otherwise insert into both `STATE.blocks` and
`blockMeshes` and return `true`.  The mesh is abstracted to its material
index; the `animate` flag only drives animation/audio. -/
def addBlock (q r y : ℤ) (materialIndex : ℕ) (st : State3) : State3 × Bool :=
  let key : Key3 := (q, r, y)
  if (st.blocks key).isSome then (st, false)
  else
    ({ st with
        blocks := fun k => if k = key then some materialIndex else st.blocks k,
        blockMeshes := fun k => if k = key then some materialIndex else st.blockMeshes k },
      true)

/-- `removeBlock(q, r, y)` (app.js, lines 293-317): no-op returning `false` on
an absent key, otherwise delete from `STATE.blocks` and, if a mesh is present
for the key, from `blockMeshes` too. -/
def removeBlock (q r y : ℤ) (st : State3) : State3 × Bool :=
  let key : Key3 := (q, r, y)
  if !(st.blocks key).isSome then (st, false)
  else
    let st1 := { st with blocks := fun k => if k = key then none else st.blocks k }
    match st1.blockMeshes key with
    | some _ =>
      ({ st1 with blockMeshes := fun k => if k = key then none else st1.blockMeshes k }, true)
    | none => (st1, true)

/-- 3D `saveState()` (app.js, lines 781-797): prune the redo branch, push a
snapshot, set `historyIndex` to the last position, then over the cap evict the
oldest entry and decrement the index. -/
def saveState3d (st : State3) : State3 :=
  let hist :=
    if st.historyIndex < (st.history.length : ℤ) - 1 then
      st.history.take (st.historyIndex + 1).toNat
    else st.history
  let hist := hist ++ [st.blocks]
  let idx : ℤ := (hist.length : ℤ) - 1
  if 50 < hist.length then { st with history := hist.drop 1, historyIndex := idx - 1 }
  else { st with history := hist, historyIndex := idx }

/-- `placeBlock()` (app.js, lines 686-697): nothing without a hovered target;
a ground hit (`y = -1`) resolves to layer 0; outside `[0, maxHeight)` the
placement is rejected; otherwise `addBlock`, and `saveState()` only when it
reports a change. -/
def placeBlock (st : State3) : State3 :=
  match st.hoveredBlock with
  | none => st
  | some (q, r, y) =>
    let placeY := if y = -1 then 0 else y
    if 0 ≤ placeY ∧ placeY < maxHeight3d then
      match addBlock q r placeY st.currentMaterial st with
      | (st1, true) => saveState3d st1
      | (st1, false) => st1
    else st

/-- `removeBlockAtCursor()` (app.js, lines 699-710) after the raycast: `hit` is
the `userData` coordinate of the first intersected block mesh, if any;
`saveState()` only when `removeBlock` reports a change. -/
def removeBlockAtCursor (hit : Option Key3) (st : State3) : State3 :=
  match hit with
  | none => st
  | some (q, r, y) =>
    match removeBlock q r y st with
    | (st1, true) => saveState3d st1
    | (st1, false) => st1

/-- `loadState(snapshot)` (app.js, lines 813-828): clear both maps, then
re-add every `(key, materialIndex)` entry of the snapshot with
`addBlock(..., animate = false)`.  Each key occurs once in a `Map`, and
`addBlock` on the cleared maps inserts every entry into both maps, so the net
pointwise effect is `blocks = snapshot` with `blockMeshes` mirroring it. -/
def loadState3d (snapshot : Store3) (st : State3) : State3 :=
  { st with blocks := snapshot, blockMeshes := snapshot }

/-- 3D `undo()` (app.js, lines 799-804). -/
def undo3d (st : State3) : State3 :=
  if st.historyIndex ≤ 0 then st
  else
    let st1 := { st with historyIndex := st.historyIndex - 1 }
    loadState3d (st1.history.getD st1.historyIndex.toNat (fun _ => none)) st1

/-- 3D `redo()` (app.js, lines 806-811). -/
def redo3d (st : State3) : State3 :=
  if (st.history.length : ℤ) - 1 ≤ st.historyIndex then st
  else
    let st1 := { st with historyIndex := st.historyIndex + 1 }
    loadState3d (st1.history.getD st1.historyIndex.toNat (fun _ => none)) st1

/-- Drive the 3D History Manager: for each store in `L`, make it the current
block store and call `saveState()`. -/
def applyRecords3d (L : List Store3) (st : State3) : State3 :=
  L.foldl (fun acc snap => saveState3d { acc with blocks := snap }) st

/-- The invariant of the two parallel 3D maps: `STATE.blocks` and
`blockMeshes` always hold exactly the same keys. -/
def KeysMatch (st : State3) : Prop :=
  ∀ k, (st.blocks k).isSome = (st.blockMeshes k).isSome

/-! ## Geometry (Hex Coordinate Engine) -/

/-- `CONFIG.hexSize` of the 2D variant (default 30). -/
noncomputable def hexSize2d : ℝ := 30

/-- `HexGrid.updateDimensions`: `hexWidth = hexSize * 2`. -/
noncomputable def hexWidth2d : ℝ := hexSize2d * 2

/-- `HexGrid.updateDimensions`: `hexHeight = Math.sqrt(3) * hexSize`. -/
noncomputable def hexHeight2d : ℝ := Real.sqrt 3 * hexSize2d

/-- `HexGrid.updateDimensions`: `verticalSpacing = hexHeight`. -/
noncomputable def verticalSpacing2d : ℝ := hexHeight2d

/-- `HexGrid.updateDimensions`: `horizontalSpacing = hexWidth * 0.75`. -/
noncomputable def horizontalSpacing2d : ℝ := hexWidth2d * 0.75

/-- `HexGrid.hexToPixel(col, row)` (part_001, lines 230-236): the local
`rowOffset` (`hexHeight / 2` on odd columns, else `0`) is written inline. -/
noncomputable def hexToPixel2d (col row : ℤ) : ℝ × ℝ :=
  ((col : ℝ) * horizontalSpacing2d,
   (row : ℝ) * verticalSpacing2d + (if col % 2 ≠ 0 then hexHeight2d / 2 else 0))

/-- `HexGrid.pixelToHex(x, y, hexSize, offset)` (part_001, lines 214-227); the
`hexSize` parameter is unused in the source.  `zoom` is `STATE.zoom`.  The
locals `adjustedX`, `adjustedY`, `col` and `rowOffset` are written inline, so
the `col` sub-expression appears twice. -/
noncomputable def pixelToHex2d (x y : ℝ) (offset : ℝ × ℝ) (zoom : ℝ) : Key2 :=
  (jsRound ((x - offset.1) / zoom / horizontalSpacing2d),
   jsRound (((y - offset.2) / zoom -
       (if jsRound ((x - offset.1) / zoom / horizontalSpacing2d) % 2 ≠ 0 then
         hexHeight2d / 2 else 0)) / verticalSpacing2d))

/-- `CONFIG.hexRadius` (app.js line 12). -/
noncomputable def hexRadius3d : ℝ := 1

/-- `hexToWorld(q, r)` (app.js, lines 241-246), pointy-top axial layout. -/
noncomputable def hexToWorld (q r : ℤ) : ℝ × ℝ :=
  (hexRadius3d * Real.sqrt 3 * ((q : ℝ) + (r : ℝ) / 2), hexRadius3d * 1.5 * (r : ℝ))

/-- `worldToHex(x, z)` (app.js, lines 248-253), independent rounding of the
axial inverse. -/
noncomputable def worldToHex (x z : ℝ) : ℤ × ℤ :=
  (jsRound ((Real.sqrt 3 / 3 * x - 1 / 3 * z) / hexRadius3d),
   jsRound ((2 / 3 * z) / hexRadius3d))

/-! ## Flood-fill reachability -/

/-- The value a filled cell ends up holding: the fill color when truthy,
absent (deleted) otherwise. -/
def fillValue (fillColor : Option String) : Option String :=
  if jsTruthy fillColor then fillColor else none

/-- Connectivity through target-colored cells: the cells reachable from
`start` along `getNeighbors2d`-edges such that every cell on the path
(including `start` and the endpoint) holds the target payload in `S0`. -/
inductive FillReach (g : ℤ) (S0 : Store2) (t : Option String) (start : Key2) : Key2 → Prop
  | base : S0 start = t → FillReach g S0 t start start
  | step {d c : Key2} : FillReach g S0 t start d → c ∈ getNeighbors2d g d → S0 c = t →
      FillReach g S0 t start c

/-! ## Helper lemmas -/

lemma jsRound_intCast (n : ℤ) : jsRound (n : ℝ) = n := by
  unfold jsRound
  rw [Int.floor_eq_iff]
  constructor
  · linarith
  · linarith

lemma saveState2d_hexCells (st : State2) : (saveState2d st).hexCells = st.hexCells := by
  unfold saveState2d
  dsimp only
  split <;> split <;> rfl

lemma saveState2d_tool (st : State2) : (saveState2d st).currentTool = st.currentTool := by
  unfold saveState2d
  dsimp only
  split <;> split <;> rfl

lemma saveState2d_color (st : State2) : (saveState2d st).currentColor = st.currentColor := by
  unfold saveState2d
  dsimp only
  split <;> split <;> rfl

lemma drawAtHex_history (hex : Key2) (st : State2) :
    (drawAtHex hex st).history = st.history ∧
    (drawAtHex hex st).historyIndex = st.historyIndex := by
  unfold drawAtHex
  dsimp only
  split
  · exact ⟨rfl, rfl⟩
  · cases st.currentTool
    · dsimp only; split <;> exact ⟨rfl, rfl⟩
    · dsimp only; split <;> exact ⟨rfl, rfl⟩
    · exact ⟨rfl, rfl⟩

lemma saveState3d_blocks (st : State3) : (saveState3d st).blocks = st.blocks := by
  unfold saveState3d
  dsimp only
  split <;> split <;> rfl

lemma saveState3d_meshes (st : State3) : (saveState3d st).blockMeshes = st.blockMeshes := by
  unfold saveState3d
  dsimp only
  split <;> split <;> rfl

/-! ## C6 — coordinate round trips -/

lemma roundTrip2d_aux (col row : ℤ) :
    pixelToHex2d (hexToPixel2d col row).1 (hexToPixel2d col row).2 (0, 0) 1 = (col, row) := by
  have hH : horizontalSpacing2d = 45 := by
    unfold horizontalSpacing2d hexWidth2d hexSize2d; norm_num
  have hVpos : (0 : ℝ) < verticalSpacing2d := by
    unfold verticalSpacing2d hexHeight2d hexSize2d
    positivity
  simp only [hexToPixel2d, pixelToHex2d]
  have e1 : ((col : ℝ) * horizontalSpacing2d - 0) / 1 / horizontalSpacing2d = (col : ℝ) := by
    rw [hH]; norm_num
  have ecol : jsRound (((col : ℝ) * horizontalSpacing2d - 0) / 1 / horizontalSpacing2d) = col := by
    rw [e1, jsRound_intCast]
  simp only [ecol]
  simp only [Prod.mk.injEq, true_and]
  have e2 : ((row : ℝ) * verticalSpacing2d + (if col % 2 ≠ 0 then hexHeight2d / 2 else 0) - 0) / 1 -
      (if col % 2 ≠ 0 then hexHeight2d / 2 else 0) = (row : ℝ) * verticalSpacing2d := by
    ring
  rw [e2, mul_div_cancel_right₀ _ hVpos.ne', jsRound_intCast]

lemma roundTrip3d_aux (q r : ℤ) :
    worldToHex (hexToWorld q r).1 (hexToWorld q r).2 = (q, r) := by
  have h3 : Real.sqrt 3 * Real.sqrt 3 = 3 := Real.mul_self_sqrt (by norm_num)
  simp only [hexToWorld, worldToHex, hexRadius3d]
  have e1 : (Real.sqrt 3 / 3 * (1 * Real.sqrt 3 * ((q : ℝ) + (r : ℝ) / 2)) -
      1 / 3 * (1 * 1.5 * (r : ℝ))) / 1 = (q : ℝ) := by
    linear_combination (((q : ℝ) + (r : ℝ) / 2) / 3) * h3
  have e2 : ((2 : ℝ) / 3 * (1 * 1.5 * (r : ℝ))) / 1 = (r : ℝ) := by ring
  rw [e1, e2, jsRound_intCast, jsRound_intCast]

/-- C6: hex-to-pixel followed by pixel-to-hex is the identity on integer grid
coordinates in both coordinate conventions: the 2D offset convention (with pan
offset `(0, 0)` and zoom `1`) and the 3D axial convention. -/
theorem hex_pixel_roundTrip :
    (∀ col row : ℤ,
        pixelToHex2d (hexToPixel2d col row).1 (hexToPixel2d col row).2 (0, 0) 1 = (col, row))
  ∧ (∀ q r : ℤ, worldToHex (hexToWorld q r).1 (hexToWorld q r).2 = (q, r)) :=
  ⟨roundTrip2d_aux, roundTrip3d_aux⟩

/-! ## C7 — 3D placement on an occupied cell -/

/-- C7: in the 3D variant, placing at an already-occupied coordinate is a
no-op, not an overwrite: `addBlock` returns `false` and leaves the state
unchanged, the stored material index at the key is unchanged, and `placeBlock`
records no new history entry for the attempt. -/
theorem place_occupied_noop (st : State3) (q r y : ℤ) (m : ℕ)
    (hocc : st.blocks (q, r, y) = some m)
    (hhov : st.hoveredBlock = some (q, r, y)) (hy : 0 ≤ y) :
    (addBlock q r y st.currentMaterial st).2 = false
  ∧ (addBlock q r y st.currentMaterial st).1 = st
  ∧ placeBlock st = st
  ∧ (placeBlock st).blocks (q, r, y) = some m
  ∧ (placeBlock st).history = st.history := by
  have hsome : (st.blocks (q, r, y)).isSome = true := by rw [hocc]; rfl
  have hadd : addBlock q r y st.currentMaterial st = (st, false) := by
    unfold addBlock
    dsimp only
    rw [if_pos hsome]
  have hplace : placeBlock st = st := by
    unfold placeBlock
    rw [hhov]
    dsimp only
    have hym : (if y = -1 then (0 : ℤ) else y) = y := by rw [if_neg]; omega
    rw [hym]
    by_cases hr : 0 ≤ y ∧ y < maxHeight3d
    · rw [if_pos hr, hadd]
    · rw [if_neg hr]
  refine ⟨by rw [hadd], by rw [hadd], hplace, by rw [hplace, hocc], by rw [hplace]⟩

/-! ## C8 — 3D layer bounds -/

/-- C8: a 3D placement whose resolved layer lies outside `[0, maxHeight)` is
rejected as a no-op (block store and history untouched), and a ground hit
(hovered layer `-1`) is mapped to layer 0 and placed when that cell is free. -/
theorem place_layer_bounds :
    (∀ st : State3, st.hoveredBlock = none → placeBlock st = st)
  ∧ (∀ (st : State3) (q r y : ℤ), st.hoveredBlock = some (q, r, y) →
      (y < -1 ∨ maxHeight3d ≤ y) → placeBlock st = st)
  ∧ (∀ (st : State3) (q r : ℤ), st.hoveredBlock = some (q, r, -1) →
      st.blocks (q, r, 0) = none →
      (placeBlock st).blocks (q, r, 0) = some st.currentMaterial) := by
  refine ⟨?_, ?_, ?_⟩
  · intro st h
    unfold placeBlock
    rw [h]
  · intro st q r y hhov hy
    unfold placeBlock
    rw [hhov]
    dsimp only
    have hym : (if y = -1 then (0 : ℤ) else y) = y := by
      rw [if_neg]
      unfold maxHeight3d at hy
      omega
    rw [hym, if_neg]
    unfold maxHeight3d at hy ⊢
    omega
  · intro st q r hhov hempty
    unfold placeBlock
    rw [hhov]
    dsimp only
    have h0 : (if (-1 : ℤ) = -1 then (0 : ℤ) else -1) = 0 := if_pos rfl
    rw [h0, if_pos (by unfold maxHeight3d; omega)]
    have hnot : ¬ ((st.blocks (q, r, 0)).isSome = true) := by
      rw [hempty]
      simp
    unfold addBlock
    dsimp only
    rw [if_neg hnot]
    dsimp only
    rw [saveState3d_blocks]
    dsimp only
    rw [if_pos rfl]

/-! ## C9 — the two 3D maps hold the same keys -/

/-- C9: every 3D operation that mutates the block data map also mutates the
render-handle map, so `blocks` and `blockMeshes` hold exactly the same keys
after `addBlock`, `removeBlock` and `loadState` whenever they did before. -/
theorem blocks_meshes_keySets :
    (∀ (q r y : ℤ) (m : ℕ) (st : State3), KeysMatch st → KeysMatch (addBlock q r y m st).1)
  ∧ (∀ (q r y : ℤ) (st : State3), KeysMatch st → KeysMatch (removeBlock q r y st).1)
  ∧ (∀ (snapshot : Store3) (st : State3), KeysMatch (loadState3d snapshot st)) := by
  refine ⟨?_, ?_, ?_⟩
  · intro q r y m st h
    unfold addBlock
    dsimp only
    by_cases hb : (st.blocks (q, r, y)).isSome = true
    · rw [if_pos hb]
      exact h
    · rw [if_neg hb]
      intro k
      dsimp only
      by_cases hk : k = (q, r, y)
      · rw [if_pos hk, if_pos hk]
      · rw [if_neg hk, if_neg hk]
        exact h k
  · intro q r y st h
    unfold removeBlock
    dsimp only
    by_cases hb : (st.blocks (q, r, y)).isSome = true
    · have hg : ¬ ((!(st.blocks (q, r, y)).isSome) = true) := by
        rw [hb]
        simp
      rw [if_neg hg]
      have hm : (st.blockMeshes (q, r, y)).isSome = true := by rw [← h]; exact hb
      obtain ⟨v, hv⟩ := Option.isSome_iff_exists.mp hm
      rw [hv]
      intro k
      dsimp only
      by_cases hk : k = (q, r, y)
      · rw [if_pos hk, if_pos hk]
      · rw [if_neg hk, if_neg hk]
        exact h k
    · have hg : (!(st.blocks (q, r, y)).isSome) = true := by
        simp at hb
        rw [hb]
        rfl
      rw [if_pos hg]
      exact h
  · intro snapshot st k
    rfl

/-! ## C10 — undo/redo never touch the history list -/

/-- C10: in both variants `undo` and `redo` leave the history list itself
unchanged (same length, same snapshots element-wise); when the operation is
not a no-op the index moves by exactly one, and a no-op leaves the whole state
unchanged. -/
theorem undo_redo_frame :
    (∀ st : State2, (undo2d st).history = st.history
      ∧ (0 < st.historyIndex → (undo2d st).historyIndex = st.historyIndex - 1)
      ∧ (st.historyIndex ≤ 0 → undo2d st = st)
      ∧ (undo2d st).currentTool = st.currentTool
      ∧ (undo2d st).currentColor = st.currentColor)
  ∧ (∀ st : State2, (redo2d st).history = st.history
      ∧ (st.historyIndex < (st.history.length : ℤ) - 1 →
          (redo2d st).historyIndex = st.historyIndex + 1)
      ∧ ((st.history.length : ℤ) - 1 ≤ st.historyIndex → redo2d st = st))
  ∧ (∀ st : State3, (undo3d st).history = st.history
      ∧ (0 < st.historyIndex → (undo3d st).historyIndex = st.historyIndex - 1)
      ∧ (st.historyIndex ≤ 0 → undo3d st = st)
      ∧ (undo3d st).currentMaterial = st.currentMaterial)
  ∧ (∀ st : State3, (redo3d st).history = st.history
      ∧ (st.historyIndex < (st.history.length : ℤ) - 1 →
          (redo3d st).historyIndex = st.historyIndex + 1)
      ∧ ((st.history.length : ℤ) - 1 ≤ st.historyIndex → redo3d st = st)) := by
  refine ⟨?_, ?_, ?_, ?_⟩
  · intro st
    unfold undo2d
    by_cases h : 0 < st.historyIndex
    · rw [if_pos h]
      exact ⟨rfl, fun _ => rfl, fun hc => absurd h (by omega), rfl, rfl⟩
    · rw [if_neg h]
      exact ⟨rfl, fun hc => absurd hc h, fun _ => rfl, rfl, rfl⟩
  · intro st
    unfold redo2d
    by_cases h : st.historyIndex < (st.history.length : ℤ) - 1
    · rw [if_pos h]
      exact ⟨rfl, fun _ => rfl, fun hc => absurd h (by omega)⟩
    · rw [if_neg h]
      exact ⟨rfl, fun hc => absurd hc h, fun _ => rfl⟩
  · intro st
    unfold undo3d
    by_cases h : st.historyIndex ≤ 0
    · rw [if_pos h]
      exact ⟨rfl, fun hc => absurd hc (by omega), fun _ => rfl, rfl⟩
    · rw [if_neg h]
      exact ⟨rfl, fun _ => rfl, fun hc => absurd hc h, rfl⟩
  · intro st
    unfold redo3d
    by_cases h : (st.history.length : ℤ) - 1 ≤ st.historyIndex
    · rw [if_pos h]
      exact ⟨rfl, fun hc => absurd hc (by omega), fun _ => rfl⟩
    · rw [if_neg h]
      exact ⟨rfl, fun _ => rfl, fun hc => absurd hc h⟩

/-! ## More helper lemmas for the editing session -/

lemma placeBlock_hovered_none (st : State3) (h : st.hoveredBlock = none) :
    placeBlock st = st := by
  unfold placeBlock
  rw [h]

lemma placeBlock_occupied (st : State3) (q r y : ℤ)
    (hhov : st.hoveredBlock = some (q, r, y)) (hy : 0 ≤ y)
    (hocc : (st.blocks (q, r, y)).isSome = true) : placeBlock st = st := by
  have hadd : addBlock q r y st.currentMaterial st = (st, false) := by
    unfold addBlock
    dsimp only
    rw [if_pos hocc]
  unfold placeBlock
  rw [hhov]
  dsimp only
  have hym : (if y = -1 then (0 : ℤ) else y) = y := by rw [if_neg]; omega
  rw [hym]
  by_cases hr : 0 ≤ y ∧ y < maxHeight3d
  · rw [if_pos hr, hadd]
  · rw [if_neg hr]

lemma removeBlockAtCursor_miss (st : State3) (q r y : ℤ)
    (hempty : st.blocks (q, r, y) = none) :
    removeBlockAtCursor (some (q, r, y)) st = st := by
  unfold removeBlockAtCursor removeBlock
  dsimp only
  rw [hempty]
  rfl

lemma floodFill2d_self (g : ℤ) (s : Store2) (c1 c2 : ℤ) (t : Option String) :
    floodFill2d g s c1 c2 t t = s := by
  unfold floodFill2d
  rw [if_pos rfl]

lemma saveState2d_noPending (st : State2)
    (hidx : st.historyIndex = (st.history.length : ℤ) - 1)
    (hlen : st.history.length < 50) :
    (saveState2d st).history = st.history ++ [st.hexCells]
  ∧ (saveState2d st).historyIndex = st.historyIndex + 1 := by
  unfold saveState2d
  dsimp only
  have h1 : ¬ (st.historyIndex < (st.history.length : ℤ) - 1) := by omega
  rw [if_neg h1]
  have hlenapp : (st.history ++ [st.hexCells]).length = st.history.length + 1 := by simp
  have h2 : ¬ (maxHistorySteps < (st.history ++ [st.hexCells]).length) := by
    rw [hlenapp]
    unfold maxHistorySteps
    omega
  rw [if_neg h2]
  exact ⟨rfl, rfl⟩

/-! ## C1 — undo/redo round trip -/

/-- The 2D session as `init()` leaves it, with the drawing color set to
`#ff0000` (the `setColor` of the spec's scenario). -/
def c1Session : State2 := { initState2d with currentColor := "#ff0000" }

/-- C1: evaluation of the 2D code at the spec's own scenario (draw at `(0,0)`
on the blank grid, undo, redo).  The draw sets the cell and pushes one
snapshot, undo leaves the cell empty — but redo also leaves it empty, because
the snapshot pushed at pointer-down holds the pre-edit store, so the contents
present before the undo are never restored.  (The final conjunct shows the
redo did run: the history index is back at its pre-undo position.) -/
theorem undo_redo_2d_drops_last_edit :
    (mouseDownLeft (0, 0) c1Session).hexCells (0, 0) = some "#ff0000"
  ∧ (mouseDownLeft (0, 0) c1Session).history.length = 2
  ∧ (mouseDownLeft (0, 0) c1Session).historyIndex = 1
  ∧ (undo2d (mouseDownLeft (0, 0) c1Session)).hexCells (0, 0) = none
  ∧ (redo2d (undo2d (mouseDownLeft (0, 0) c1Session))).hexCells (0, 0) = none
  ∧ (redo2d (undo2d (mouseDownLeft (0, 0) c1Session))).historyIndex = 1 :=
  ⟨rfl, rfl, rfl, rfl, rfl, rfl⟩

/-! ## C2 — no-op edits and the history stack -/

/-- A minimal 2D session for the no-op-edit counterexample: empty store, one
history snapshot, erase tool selected. -/
def c2Session : State2 :=
  { hexCells := fun _ => none, history := [fun _ => none], historyIndex := 0,
    currentTool := Tool.erase, currentColor := "#6366f1", isDrawing := false }

/-- C2 counterexample: in the 2D variant, erasing an already-empty cell leaves
the store unchanged, yet after the pointer-down the history list has length 2
instead of 1 — the snapshot is pushed unconditionally before the tool runs. -/
theorem noop_edit_2d_pushes_history :
    (mouseDownLeft (0, 0) c2Session).hexCells = c2Session.hexCells
  ∧ c2Session.history.length = 1
  ∧ (mouseDownLeft (0, 0) c2Session).history.length = 2 :=
  ⟨rfl, rfl, rfl⟩

/-- C2 (amended): in the 3D variant an edit that does not change the block
store adds no history snapshot (a pointer-down with no resolved target, a
placement on an occupied cell and a removal of an absent block all leave the
state untouched); in the 2D variant the left-button pointer-down pushes one
snapshot before the tool is applied, so — with no redo branch pending and the
cap not reached — the history grows by one even when the edit does not change
the store (e.g. erasing an empty cell). -/
theorem noop_edit_history :
    (∀ st : State3, st.hoveredBlock = none → placeBlock st = st)
  ∧ (∀ (st : State3) (q r y : ℤ) (m : ℕ), st.hoveredBlock = some (q, r, y) →
      0 ≤ y → st.blocks (q, r, y) = some m → placeBlock st = st)
  ∧ (∀ st : State3, removeBlockAtCursor none st = st)
  ∧ (∀ (st : State3) (q r y : ℤ), st.blocks (q, r, y) = none →
      removeBlockAtCursor (some (q, r, y)) st = st)
  ∧ (∀ (st : State2) (hex : Key2),
      st.historyIndex = (st.history.length : ℤ) - 1 → st.history.length < 50 →
      (mouseDownLeft hex st).history.length = st.history.length + 1
    ∧ (st.currentTool = Tool.erase → st.hexCells hex = none →
        (mouseDownLeft hex st).hexCells = st.hexCells)) := by
  refine ⟨placeBlock_hovered_none, ?_, fun st => rfl, removeBlockAtCursor_miss, ?_⟩
  · intro st q r y m hhov hy hocc
    exact placeBlock_occupied st q r y hhov hy (by rw [hocc]; rfl)
  · intro st hex hidx hlen
    constructor
    · unfold mouseDownLeft
      rw [(drawAtHex_history hex _).1]
      rw [(saveState2d_noPending { st with isDrawing := true } hidx hlen).1]
      simp
    · intro htool hcell
      unfold mouseDownLeft drawAtHex
      have hA1 : (saveState2d { st with isDrawing := true }).hexCells = st.hexCells :=
        saveState2d_hexCells _
      have hA2 : (saveState2d { st with isDrawing := true }).currentTool = Tool.erase := by
        rw [saveState2d_tool]
        exact htool
      have hA3 : (saveState2d { st with isDrawing := true }).hexCells hex = none := by
        rw [hA1]
        exact hcell
      split
      · exact hA1
      · rw [hA2]
        rw [hA3]
        dsimp only
        exact hA1

/-! ## C5 — self-fill -/

/-- A minimal 2D session for the self-fill counterexample: cell `(0,0)` holds
the currently selected color, fill tool selected, one history snapshot. -/
def c5Session : State2 :=
  { hexCells := fun k => if k = (0, 0) then some "#6366f1" else none,
    history := [fun _ => none], historyIndex := 0,
    currentTool := Tool.fill, currentColor := "#6366f1", isDrawing := false }

/-- C5 counterexample: a fill click whose replacement color equals the target
color leaves the store unchanged, yet a history snapshot is pushed — the
history grows from 1 to 2 entries. -/
theorem selfFill_pushes_history :
    (mouseDownLeft (0, 0) c5Session).hexCells = c5Session.hexCells
  ∧ c5Session.history.length = 1
  ∧ (mouseDownLeft (0, 0) c5Session).history.length = 2 :=
  ⟨rfl, rfl, rfl⟩

/-- C5 (amended): when the replacement payload equals the target payload the
flood fill itself leaves the Cell Store entirely unchanged (`floodFill` is a
pure no-op, and it never pushes history itself); however, the 2D pointer-down
that triggers the fill has already pushed one snapshot, so the interaction
still grows the history list by one. -/
theorem selfFill_noop :
    (∀ (g : ℤ) (s : Store2) (c1 c2 : ℤ) (t : Option String), floodFill2d g s c1 c2 t t = s)
  ∧ (∀ (st : State2) (hex : Key2),
      (0 ≤ hex.1 ∧ hex.1 < gridSize2d ∧ 0 ≤ hex.2 ∧ hex.2 < gridSize2d) →
      st.currentTool = Tool.fill →
      st.hexCells hex = some st.currentColor →
      st.historyIndex = (st.history.length : ℤ) - 1 → st.history.length < 50 →
      (mouseDownLeft hex st).hexCells = st.hexCells
    ∧ (mouseDownLeft hex st).history.length = st.history.length + 1) := by
  refine ⟨floodFill2d_self, ?_⟩
  intro st hex hb htool hcell hidx hlen
  have hA1 : (saveState2d { st with isDrawing := true }).hexCells = st.hexCells :=
    saveState2d_hexCells _
  have hA2 : (saveState2d { st with isDrawing := true }).currentTool = Tool.fill := by
    rw [saveState2d_tool]
    exact htool
  have hA3 : (saveState2d { st with isDrawing := true }).currentColor = st.currentColor :=
    saveState2d_color _
  constructor
  · unfold mouseDownLeft drawAtHex
    rw [if_neg (by omega)]
    rw [hA2]
    dsimp only
    rw [hA1, hA3, hcell, floodFill2d_self]
  · unfold mouseDownLeft
    rw [(drawAtHex_history hex _).1]
    rw [(saveState2d_noPending { st with isDrawing := true } hidx hlen).1]
    simp

/-! ## C3 — history cap and eviction -/

lemma saveState2d_cap (st : State2) (h : st.history.length ≤ 50) :
    (saveState2d st).history.length ≤ 50 := by
  unfold saveState2d
  dsimp only
  set pruned : List Store2 :=
    (if st.historyIndex < (st.history.length : ℤ) - 1 then
      st.history.take (st.historyIndex + 1).toNat
    else st.history) with hpruned
  have hple : pruned.length ≤ 50 := by
    rw [hpruned]
    split
    · calc (st.history.take (st.historyIndex + 1).toNat).length
          ≤ st.history.length := by
            rw [List.length_take]
            exact min_le_right _ _
        _ ≤ 50 := h
    · exact h
  split
  · dsimp only
    rw [List.length_drop, List.length_append, List.length_singleton]
    omega
  · rename_i hcap
    dsimp only
    rw [List.length_append, List.length_singleton] at hcap ⊢
    unfold maxHistorySteps at hcap
    omega

lemma saveState3d_cap (st : State3) (h : st.history.length ≤ 50) :
    (saveState3d st).history.length ≤ 50 := by
  unfold saveState3d
  dsimp only
  set pruned : List Store3 :=
    (if st.historyIndex < (st.history.length : ℤ) - 1 then
      st.history.take (st.historyIndex + 1).toNat
    else st.history) with hpruned
  have hple : pruned.length ≤ 50 := by
    rw [hpruned]
    split
    · calc (st.history.take (st.historyIndex + 1).toNat).length
          ≤ st.history.length := by
            rw [List.length_take]
            exact min_le_right _ _
        _ ≤ 50 := h
    · exact h
  split
  · dsimp only
    rw [List.length_drop, List.length_append, List.length_singleton]
    omega
  · rename_i hcap
    dsimp only
    rw [List.length_append, List.length_singleton] at hcap ⊢
    omega

lemma applyRecords2d_step (L : List Store2) (s : Store2) (st : State2) :
    applyRecords2d (L ++ [s]) st = saveState2d { applyRecords2d L st with hexCells := s } := by
  unfold applyRecords2d
  rw [List.foldl_append]
  rfl

lemma record2d_invStep (st : State2) (s : Store2)
    (hidx : st.historyIndex = (st.history.length : ℤ) - 1) :
    (st.history.length < 50 →
        (saveState2d { st with hexCells := s }).history = st.history ++ [s]
      ∧ (saveState2d { st with hexCells := s }).historyIndex = (st.history.length : ℤ))
  ∧ (st.history.length = 50 →
        (saveState2d { st with hexCells := s }).history = (st.history ++ [s]).drop 1
      ∧ (saveState2d { st with hexCells := s }).historyIndex = 49) := by
  constructor
  · intro hlen
    have h := saveState2d_noPending { st with hexCells := s } hidx hlen
    refine ⟨h.1, ?_⟩
    rw [h.2]
    show st.historyIndex + 1 = (st.history.length : ℤ)
    omega
  · intro hlen
    unfold saveState2d
    dsimp only
    have h1 : ¬ (st.historyIndex < (st.history.length : ℤ) - 1) := by omega
    rw [if_neg h1]
    have h2 : maxHistorySteps < (st.history ++ [s]).length := by
      rw [List.length_append, List.length_singleton]
      unfold maxHistorySteps
      omega
    rw [if_pos h2]
    refine ⟨rfl, ?_⟩
    show st.historyIndex = 49
    omega

lemma applyRecords2d_fresh (L : List Store2) (st : State2)
    (h0 : st.history = []) (h1 : st.historyIndex = -1) :
    (applyRecords2d L st).history = L.drop (L.length - 50)
  ∧ (applyRecords2d L st).history.length = min L.length 50
  ∧ (applyRecords2d L st).historyIndex = ((min L.length 50 : ℕ) : ℤ) - 1 := by
  induction L using List.reverseRecOn with
  | nil =>
    refine ⟨?_, ?_, ?_⟩ <;> simp [applyRecords2d, h0, h1]
  | append_singleton L s ih =>
    obtain ⟨ihh, ihl, ihi⟩ := ih
    rw [applyRecords2d_step]
    have hidx : (applyRecords2d L st).historyIndex =
        ((applyRecords2d L st).history.length : ℤ) - 1 := by
      rw [ihl, ihi]
    have hstep := record2d_invStep (applyRecords2d L st) s hidx
    by_cases hc : L.length < 50
    · have hlen : (applyRecords2d L st).history.length < 50 := by rw [ihl]; omega
      obtain ⟨hh, hi⟩ := hstep.1 hlen
      refine ⟨?_, ?_, ?_⟩
      · rw [hh, ihh]
        have e0 : L.length - 50 = 0 := by omega
        have e1 : (L ++ [s]).length - 50 = 0 := by
          rw [List.length_append, List.length_singleton]
          omega
        rw [e0, e1, List.drop_zero, List.drop_zero]
      · rw [hh, List.length_append, ihl, List.length_singleton, List.length_append,
          List.length_singleton]
        omega
      · rw [hi, ihl, List.length_append, List.length_singleton]
        omega
    · have hlen : (applyRecords2d L st).history.length = 50 := by rw [ihl]; omega
      obtain ⟨hh, hi⟩ := hstep.2 hlen
      refine ⟨?_, ?_, ?_⟩
      · rw [hh, ihh]
        have d1 : 1 ≤ (L.drop (L.length - 50)).length := by
          rw [List.length_drop]
          omega
        rw [List.drop_append_of_le_length d1, List.drop_drop]
        have d2 : (L ++ [s]).length - 50 ≤ L.length := by
          rw [List.length_append, List.length_singleton]
          omega
        rw [List.drop_append_of_le_length d2]
        congr 2
        rw [List.length_append, List.length_singleton]
        omega
      · rw [hh, List.length_drop, List.length_append, ihl, List.length_singleton,
          List.length_append, List.length_singleton]
        omega
      · rw [hi, List.length_append, List.length_singleton]
        omega

lemma applyRecords3d_step (L : List Store3) (s : Store3) (st : State3) :
    applyRecords3d (L ++ [s]) st = saveState3d { applyRecords3d L st with blocks := s } := by
  unfold applyRecords3d
  rw [List.foldl_append]
  rfl

lemma record3d_invStep (st : State3) (s : Store3)
    (hidx : st.historyIndex = (st.history.length : ℤ) - 1) :
    (st.history.length < 50 →
        (saveState3d { st with blocks := s }).history = st.history ++ [s]
      ∧ (saveState3d { st with blocks := s }).historyIndex = (st.history.length : ℤ))
  ∧ (st.history.length = 50 →
        (saveState3d { st with blocks := s }).history = (st.history ++ [s]).drop 1
      ∧ (saveState3d { st with blocks := s }).historyIndex = 49) := by
  constructor
  · intro hlen
    unfold saveState3d
    dsimp only
    have h1 : ¬ (st.historyIndex < (st.history.length : ℤ) - 1) := by omega
    rw [if_neg h1]
    have h2 : ¬ (50 < (st.history ++ [s]).length) := by
      rw [List.length_append, List.length_singleton]
      omega
    rw [if_neg h2]
    refine ⟨rfl, ?_⟩
    show ((st.history ++ [s]).length : ℤ) - 1 = (st.history.length : ℤ)
    rw [List.length_append, List.length_singleton]
    push_cast
    ring
  · intro hlen
    unfold saveState3d
    dsimp only
    have h1 : ¬ (st.historyIndex < (st.history.length : ℤ) - 1) := by omega
    rw [if_neg h1]
    have h2 : 50 < (st.history ++ [s]).length := by
      rw [List.length_append, List.length_singleton]
      omega
    rw [if_pos h2]
    refine ⟨rfl, ?_⟩
    show ((st.history ++ [s]).length : ℤ) - 1 - 1 = 49
    rw [List.length_append, List.length_singleton]
    omega

lemma applyRecords3d_fresh (L : List Store3) (st : State3)
    (h0 : st.history = []) (h1 : st.historyIndex = -1) :
    (applyRecords3d L st).history = L.drop (L.length - 50)
  ∧ (applyRecords3d L st).history.length = min L.length 50
  ∧ (applyRecords3d L st).historyIndex = ((min L.length 50 : ℕ) : ℤ) - 1 := by
  induction L using List.reverseRecOn with
  | nil =>
    refine ⟨?_, ?_, ?_⟩ <;> simp [applyRecords3d, h0, h1]
  | append_singleton L s ih =>
    obtain ⟨ihh, ihl, ihi⟩ := ih
    rw [applyRecords3d_step]
    have hidx : (applyRecords3d L st).historyIndex =
        ((applyRecords3d L st).history.length : ℤ) - 1 := by
      rw [ihl, ihi]
    have hstep := record3d_invStep (applyRecords3d L st) s hidx
    by_cases hc : L.length < 50
    · have hlen : (applyRecords3d L st).history.length < 50 := by rw [ihl]; omega
      obtain ⟨hh, hi⟩ := hstep.1 hlen
      refine ⟨?_, ?_, ?_⟩
      · rw [hh, ihh]
        have e0 : L.length - 50 = 0 := by omega
        have e1 : (L ++ [s]).length - 50 = 0 := by
          rw [List.length_append, List.length_singleton]
          omega
        rw [e0, e1, List.drop_zero, List.drop_zero]
      · rw [hh, List.length_append, ihl, List.length_singleton, List.length_append,
          List.length_singleton]
        omega
      · rw [hi, ihl, List.length_append, List.length_singleton]
        omega
    · have hlen : (applyRecords3d L st).history.length = 50 := by rw [ihl]; omega
      obtain ⟨hh, hi⟩ := hstep.2 hlen
      refine ⟨?_, ?_, ?_⟩
      · rw [hh, ihh]
        have d1 : 1 ≤ (L.drop (L.length - 50)).length := by
          rw [List.length_drop]
          omega
        rw [List.drop_append_of_le_length d1, List.drop_drop]
        have d2 : (L ++ [s]).length - 50 ≤ L.length := by
          rw [List.length_append, List.length_singleton]
          omega
        rw [List.drop_append_of_le_length d2]
        congr 2
        rw [List.length_append, List.length_singleton]
        omega
      · rw [hh, List.length_drop, List.length_append, ihl, List.length_singleton,
          List.length_append, List.length_singleton]
        omega
      · rw [hi, List.length_append, List.length_singleton]
        omega

/-- C3: in both variants the history stack length never exceeds 50 (the cap is
preserved by every `saveState`), and after the 51st `record` from a fresh
session the oldest snapshot has been evicted from the list while the index
still refers to the most recently recorded snapshot (`index = length - 1`). -/
theorem history_cap_eviction :
    (∀ st : State2, st.history.length ≤ 50 → (saveState2d st).history.length ≤ 50)
  ∧ (∀ st : State3, st.history.length ≤ 50 → (saveState3d st).history.length ≤ 50)
  ∧ (∀ (L : List Store2) (st : State2), st.history = [] → st.historyIndex = -1 →
      L.length = 51 →
        (applyRecords2d L st).history = L.drop 1
      ∧ (applyRecords2d L st).history.length = 50
      ∧ (applyRecords2d L st).historyIndex = ((applyRecords2d L st).history.length : ℤ) - 1)
  ∧ (∀ (L : List Store3) (st : State3), st.history = [] → st.historyIndex = -1 →
      L.length = 51 →
        (applyRecords3d L st).history = L.drop 1
      ∧ (applyRecords3d L st).history.length = 50
      ∧ (applyRecords3d L st).historyIndex = ((applyRecords3d L st).history.length : ℤ) - 1) := by
  refine ⟨saveState2d_cap, saveState3d_cap, ?_, ?_⟩
  · intro L st h0 h1 hL
    obtain ⟨hh, hl, hi⟩ := applyRecords2d_fresh L st h0 h1
    rw [hL] at hh hl hi
    norm_num at hh hl hi
    refine ⟨by rw [List.drop_one]; exact hh, hl, ?_⟩
    rw [hi, hl]
    norm_num
  · intro L st h0 h1 hL
    obtain ⟨hh, hl, hi⟩ := applyRecords3d_fresh L st h0 h1
    rw [hL] at hh hl hi
    norm_num at hh hl hi
    refine ⟨by rw [List.drop_one]; exact hh, hl, ?_⟩
    rw [hi, hl]
    norm_num

/-! ## C4 — flood fill: bounded, targeted, connected -/

lemma floodFillLoop_cons (g : ℤ) (t f : Option String) (n : ℕ) (s : Store2)
    (visited : List Key2) (c : Key2) (rest : List Key2) (filled : ℕ) :
    floodFillLoop g t f (n + 1) s visited (c :: rest) filled =
      if 1000 ≤ filled then s
      else if c ∈ visited then floodFillLoop g t f n s visited rest filled
      else if s c ≠ t then floodFillLoop g t f n s (c :: visited) rest filled
      else
        floodFillLoop g t f n
          (if jsTruthy f then (fun k => if k = c then f else s k)
           else (fun k => if k = c then none else s k))
          (c :: visited)
          (((getNeighbors2d g c).filter (fun x => decide (¬ x ∈ c :: visited))).reverse ++ rest)
          (filled + 1) :=
  rfl

/-- The loop invariant of `floodFill`, proved by induction on the fuel: every
cell whose payload differs from the original store `S0` was target-colored in
`S0`, now holds the fill value, is reachable from the start through
target-colored cells, and lies in a list of length at most 1000. -/
lemma floodFillLoop_safety (g : ℤ) (t f : Option String) (S0 : Store2) (start : Key2) :
    ∀ (fuel : ℕ) (s : Store2) (visited stack : List Key2) (filled : ℕ) (l : List Key2),
      (∀ k, s k ≠ S0 k → k ∈ visited) →
      (∀ k, s k ≠ S0 k → S0 k = t ∧ s k = fillValue f ∧ FillReach g S0 t start k) →
      (∀ c ∈ stack, c = start ∨ ∃ d, FillReach g S0 t start d ∧ c ∈ getNeighbors2d g d) →
      (∀ k, s k ≠ S0 k → k ∈ l) →
      l.length ≤ filled →
      filled ≤ 1000 →
      (∀ k, floodFillLoop g t f fuel s visited stack filled k ≠ S0 k →
          S0 k = t ∧ floodFillLoop g t f fuel s visited stack filled k = fillValue f ∧
          FillReach g S0 t start k)
    ∧ ∃ l2 : List Key2, l2.length ≤ 1000 ∧
        ∀ k, floodFillLoop g t f fuel s visited stack filled k ≠ S0 k → k ∈ l2 := by
  intro fuel
  induction fuel with
  | zero =>
    intro s visited stack filled l h1 h2 h3 hl hlf hf
    exact ⟨fun k hk => h2 k hk, ⟨l, le_trans hlf hf, hl⟩⟩
  | succ n ih =>
    intro s visited stack filled l h1 h2 h3 hl hlf hf
    cases stack with
    | nil =>
      exact ⟨fun k hk => h2 k hk, ⟨l, le_trans hlf hf, hl⟩⟩
    | cons c rest =>
      by_cases hguard : 1000 ≤ filled
      · rw [floodFillLoop_cons, if_pos hguard]
        exact ⟨fun k hk => h2 k hk, ⟨l, le_trans hlf hf, hl⟩⟩
      · rw [floodFillLoop_cons, if_neg hguard]
        by_cases hv : c ∈ visited
        · rw [if_pos hv]
          exact ih s visited rest filled l h1 h2
            (fun d hd => h3 d (List.mem_cons_of_mem _ hd)) hl hlf hf
        · rw [if_neg hv]
          by_cases hcol : s c ≠ t
          · rw [if_pos hcol]
            have h1a : ∀ k, s k ≠ S0 k → k ∈ c :: visited :=
              fun k hk => List.mem_cons_of_mem _ (h1 k hk)
            have h3a : ∀ d ∈ rest,
                d = start ∨ ∃ e, FillReach g S0 t start e ∧ d ∈ getNeighbors2d g e :=
              fun d hd => h3 d (List.mem_cons_of_mem _ hd)
            exact ih s (c :: visited) rest filled l h1a h2 h3a hl hlf hf
          · rw [if_neg hcol]
            push_neg at hcol
            have hsc : s c = S0 c := by
              by_contra hne2
              exact hv (h1 c hne2)
            have hS0c : S0 c = t := by rw [← hsc]; exact hcol
            have hreach : FillReach g S0 t start c := by
              rcases h3 c (List.mem_cons_self c rest) with hstart | ⟨d, hd, hmem⟩
              · rw [hstart]
                exact FillReach.base (by rw [← hstart]; exact hS0c)
              · exact FillReach.step hd hmem hS0c
            set s2 : Store2 :=
              (if jsTruthy f then (fun k => if k = c then f else s k)
               else (fun k => if k = c then none else s k)) with hs2
            have hs2eval : ∀ k, s2 k = if k = c then fillValue f else s k := by
              intro k
              rw [hs2]
              unfold fillValue
              cases jsTruthy f <;> simp
            have h1a : ∀ k, s2 k ≠ S0 k → k ∈ c :: visited := by
              intro k hk
              by_cases hkc : k = c
              · rw [hkc]
                exact List.mem_cons_self _ _
              · rw [hs2eval k, if_neg hkc] at hk
                exact List.mem_cons_of_mem _ (h1 k hk)
            have h2a : ∀ k, s2 k ≠ S0 k →
                S0 k = t ∧ s2 k = fillValue f ∧ FillReach g S0 t start k := by
              intro k hk
              by_cases hkc : k = c
              · subst hkc
                exact ⟨hS0c, by rw [hs2eval, if_pos rfl], hreach⟩
              · have hk2 : s k ≠ S0 k := by
                  rw [hs2eval k, if_neg hkc] at hk
                  exact hk
                obtain ⟨ha, hb, hc2⟩ := h2 k hk2
                exact ⟨ha, by rw [hs2eval k, if_neg hkc]; exact hb, hc2⟩
            have h3a : ∀ d ∈
                ((getNeighbors2d g c).filter (fun x => decide (¬ x ∈ c :: visited))).reverse
                  ++ rest,
                d = start ∨ ∃ e, FillReach g S0 t start e ∧ d ∈ getNeighbors2d g e := by
              intro d hd
              rcases List.mem_append.mp hd with hd1 | hd2
              · right
                exact ⟨c, hreach, List.mem_of_mem_filter (List.mem_reverse.mp hd1)⟩
              · exact h3 d (List.mem_cons_of_mem _ hd2)
            have hla : ∀ k, s2 k ≠ S0 k → k ∈ c :: l := by
              intro k hk
              by_cases hkc : k = c
              · rw [hkc]
                exact List.mem_cons_self _ _
              · have hk2 : s k ≠ S0 k := by
                  rw [hs2eval k, if_neg hkc] at hk
                  exact hk
                exact List.mem_cons_of_mem _ (hl k hk2)
            have hlfa : (c :: l).length ≤ filled + 1 := by
              rw [List.length_cons]
              omega
            have hfa : filled + 1 ≤ 1000 := by omega
            exact ih s2 (c :: visited) _ (filled + 1) (c :: l) h1a h2a h3a hla hlfa hfa

/-- C4: for every start coordinate and every target/replacement pair with
target ≠ replacement, `floodFill` is total (the cap truncation raises no
error) and there is a set of at most 1000 cells outside of which every cell
keeps its prior payload; every changed cell held the target payload before, is
connected to the start through target-payload cells, and now holds the fill
value. -/
theorem floodFill2d_spec (g : ℤ) (S0 : Store2) (startCol startRow : ℤ)
    (t f : Option String) (hne : t ≠ f) :
    ∃ l : List Key2, l.length ≤ 1000 ∧
      ∀ k, floodFill2d g S0 startCol startRow t f k = S0 k ∨
        (k ∈ l ∧ S0 k = t ∧ floodFill2d g S0 startCol startRow t f k = fillValue f ∧
          FillReach g S0 t (startCol, startRow) k) := by
  have hloop := floodFillLoop_safety g t f S0 (startCol, startRow) 7001 S0 []
    [(startCol, startRow)] 0 []
    (fun k hk => absurd rfl hk) (fun k hk => absurd rfl hk)
    (fun c hc => Or.inl (List.mem_singleton.mp hc))
    (fun k hk => absurd rfl hk)
    (by simp)
    (by omega)
  obtain ⟨hprops, l2, hlen, hsub⟩ := hloop
  unfold floodFill2d
  rw [if_neg hne]
  refine ⟨l2, hlen, ?_⟩
  intro k
  by_cases hk : floodFillLoop g t f 7001 S0 [] [(startCol, startRow)] 0 k = S0 k
  · exact Or.inl hk
  · obtain ⟨ha, hb, hc⟩ := hprops k hk
    exact Or.inr ⟨hsub k hk, ha, hb, hc⟩

/-! ## Concrete witnesses -/

/-- A 3D session with a single stone block at the origin, hovered. -/
def c7Session : State3 :=
  { blocks := fun k => if k = (0, 0, 0) then some 0 else none,
    blockMeshes := fun k => if k = (0, 0, 0) then some 0 else none,
    history := [fun _ => none], historyIndex := 0, currentMaterial := 0,
    hoveredBlock := some (0, 0, 0) }

/-- A 3D session hovering a coordinate above the height cap. -/
def c8aSession : State3 :=
  { blocks := fun _ => none, blockMeshes := fun _ => none, history := [fun _ => none],
    historyIndex := 0, currentMaterial := 2, hoveredBlock := some (0, 0, 25) }

/-- A 3D session hovering the ground (layer `-1`). -/
def c8bSession : State3 := { c8aSession with hoveredBlock := some (0, 0, -1) }

/-- An empty 3D session with no hovered target and two snapshots. -/
def c10Session3 : State3 :=
  { blocks := fun _ => none, blockMeshes := fun _ => none,
    history := [fun _ => none, fun _ => none], historyIndex := 0,
    currentMaterial := 0, hoveredBlock := none }

/-- A 2D session with two snapshots, index at the end. -/
def c10Session2 : State2 :=
  { hexCells := fun _ => none, history := [fun _ => none, fun _ => none], historyIndex := 1,
    currentTool := Tool.draw, currentColor := "#6366f1", isDrawing := false }

/-- The 2D state before `init()` runs its first `saveState()`. -/
def fresh2 : State2 :=
  { hexCells := fun _ => none, history := [], historyIndex := -1,
    currentTool := Tool.draw, currentColor := "#6366f1", isDrawing := false }

/-- The 3D state before any `saveState()`. -/
def fresh3 : State3 :=
  { blocks := fun _ => none, blockMeshes := fun _ => none, history := [],
    historyIndex := -1, currentMaterial := 0, hoveredBlock := none }

theorem place_occupied_noop_witness :
    c7Session.blocks (0, 0, 0) = some 0
  ∧ c7Session.hoveredBlock = some (0, 0, 0)
  ∧ (0 : ℤ) ≤ 0
  ∧ placeBlock c7Session = c7Session :=
  ⟨rfl, rfl, by decide, (place_occupied_noop c7Session 0 0 0 0 rfl rfl (by decide)).2.2.1⟩

theorem place_layer_bounds_witness :
    c8aSession.hoveredBlock = some (0, 0, 25)
  ∧ ((25 : ℤ) < -1 ∨ maxHeight3d ≤ 25)
  ∧ placeBlock c8aSession = c8aSession
  ∧ c8bSession.hoveredBlock = some (0, 0, -1)
  ∧ c8bSession.blocks (0, 0, 0) = none
  ∧ (placeBlock c8bSession).blocks (0, 0, 0) = some c8bSession.currentMaterial :=
  ⟨rfl, Or.inr (by decide), place_layer_bounds.2.1 c8aSession 0 0 25 rfl (Or.inr (by decide)),
   rfl, rfl, place_layer_bounds.2.2 c8bSession 0 0 rfl rfl⟩

theorem blocks_meshes_keySets_witness :
    KeysMatch c7Session
  ∧ KeysMatch (addBlock 1 0 0 3 c7Session).1
  ∧ KeysMatch (removeBlock 0 0 0 c7Session).1
  ∧ KeysMatch (loadState3d (fun _ => none) c7Session) :=
  ⟨fun _ => rfl, blocks_meshes_keySets.1 1 0 0 3 c7Session (fun _ => rfl),
   blocks_meshes_keySets.2.1 0 0 0 c7Session (fun _ => rfl),
   blocks_meshes_keySets.2.2 (fun _ => none) c7Session⟩

theorem undo_redo_frame_witness :
    (undo2d c10Session2).history = c10Session2.history
  ∧ (0 : ℤ) < c10Session2.historyIndex
  ∧ (undo2d c10Session2).historyIndex = c10Session2.historyIndex - 1
  ∧ ((c10Session2.history.length : ℤ) - 1 ≤ c10Session2.historyIndex)
  ∧ redo2d c10Session2 = c10Session2
  ∧ (c10Session3.historyIndex ≤ 0)
  ∧ undo3d c10Session3 = c10Session3
  ∧ (c10Session3.historyIndex < (c10Session3.history.length : ℤ) - 1)
  ∧ (redo3d c10Session3).historyIndex = c10Session3.historyIndex + 1 :=
  ⟨(undo_redo_frame.1 c10Session2).1, by decide,
   (undo_redo_frame.1 c10Session2).2.1 (by decide), by decide,
   (undo_redo_frame.2.1 c10Session2).2.2 (by decide), by decide,
   (undo_redo_frame.2.2.1 c10Session3).2.2.1 (by decide), by decide,
   (undo_redo_frame.2.2.2 c10Session3).2.1 (by decide)⟩

theorem noop_edit_history_witness :
    c10Session3.hoveredBlock = none
  ∧ placeBlock c10Session3 = c10Session3
  ∧ c7Session.blocks (0, 0, 0) = some 0
  ∧ placeBlock c7Session = c7Session
  ∧ c10Session3.blocks (5, 5, 5) = none
  ∧ removeBlockAtCursor (some (5, 5, 5)) c10Session3 = c10Session3
  ∧ c2Session.historyIndex = (c2Session.history.length : ℤ) - 1
  ∧ c2Session.history.length < 50
  ∧ (mouseDownLeft (0, 0) c2Session).history.length = c2Session.history.length + 1 :=
  ⟨rfl, noop_edit_history.1 c10Session3 rfl, rfl,
   noop_edit_history.2.1 c7Session 0 0 0 0 rfl (by decide) rfl, rfl,
   noop_edit_history.2.2.2.1 c10Session3 5 5 5 rfl, by decide, by decide,
   (noop_edit_history.2.2.2.2 c2Session (0, 0) (by decide) (by decide)).1⟩

theorem selfFill_noop_witness :
    floodFill2d 20 (fun _ => none) 0 0 none none = (fun _ => none : Store2)
  ∧ ((0 : ℤ) ≤ 0 ∧ (0 : ℤ) < gridSize2d ∧ (0 : ℤ) ≤ 0 ∧ (0 : ℤ) < gridSize2d)
  ∧ c5Session.currentTool = Tool.fill
  ∧ c5Session.hexCells (0, 0) = some c5Session.currentColor
  ∧ c5Session.historyIndex = (c5Session.history.length : ℤ) - 1
  ∧ c5Session.history.length < 50
  ∧ (mouseDownLeft (0, 0) c5Session).history.length = c5Session.history.length + 1 :=
  ⟨selfFill_noop.1 20 (fun _ => none) 0 0 none, by decide, rfl, rfl, by decide, by decide,
   (selfFill_noop.2 c5Session (0, 0) (by decide) rfl rfl (by decide) (by decide)).2⟩

theorem history_cap_eviction_witness :
    c2Session.history.length ≤ 50
  ∧ (saveState2d c2Session).history.length ≤ 50
  ∧ (List.replicate 51 (fun _ => none : Store2)).length = 51
  ∧ (applyRecords2d (List.replicate 51 (fun _ => none : Store2)) fresh2).history
      = (List.replicate 51 (fun _ => none : Store2)).drop 1
  ∧ (applyRecords3d (List.replicate 51 (fun _ => none : Store3)) fresh3).historyIndex
      = ((applyRecords3d (List.replicate 51 (fun _ => none : Store3)) fresh3).history.length
          : ℤ) - 1 :=
  ⟨by decide, history_cap_eviction.1 c2Session (by decide), by simp,
   (history_cap_eviction.2.2.1 (List.replicate 51 (fun _ => none : Store2)) fresh2 rfl rfl
      (by simp)).1,
   (history_cap_eviction.2.2.2 (List.replicate 51 (fun _ => none : Store3)) fresh3 rfl rfl
      (by simp)).2.2⟩

theorem floodFill2d_spec_witness :
    (none ≠ (some "#ff0000" : Option String))
  ∧ ∃ l : List Key2, l.length ≤ 1000 ∧
      ∀ k, floodFill2d 20 (fun _ => none) 0 0 none (some "#ff0000") k = none ∨
        (k ∈ l ∧ FillReach 20 (fun _ => none) none (0, 0) k) := by
  refine ⟨by decide, ?_⟩
  obtain ⟨l, h1, h2⟩ := floodFill2d_spec 20 (fun _ => none) 0 0 none (some "#ff0000") (by decide)
  refine ⟨l, h1, fun k => ?_⟩
  rcases h2 k with h | h
  · exact Or.inl h
  · exact Or.inr ⟨h.1, h.2.2.2⟩

/-! ## Fuel sufficiency: the fuel encoding never truncates the source loop -/

lemma getNeighbors2d_length_le (g : ℤ) (c : Key2) : (getNeighbors2d g c).length ≤ 6 := by
  unfold getNeighbors2d
  dsimp only
  exact le_trans (List.length_filter_le _ _) (by simp)

/-- Each loop iteration pops one stack entry, a fill pushes at most 6 and the
`filled < 1000` guard bounds the number of fills, so
`stack.length + 7 * (1000 - filled)` bounds the remaining iterations: with at
least that much fuel, one more unit of fuel changes nothing. -/
lemma floodFillLoop_fuel_stable (g : ℤ) (t f : Option String) :
    ∀ (fuel : ℕ) (s : Store2) (visited stack : List Key2) (filled : ℕ),
      stack.length + 7 * (1000 - filled) ≤ fuel →
      floodFillLoop g t f (fuel + 1) s visited stack filled =
        floodFillLoop g t f fuel s visited stack filled := by
  intro fuel
  induction fuel with
  | zero =>
    intro s visited stack filled h
    have hstack : stack = [] := List.length_eq_zero.mp (by omega)
    subst hstack
    rfl
  | succ n ih =>
    intro s visited stack filled h
    cases stack with
    | nil => rfl
    | cons c rest =>
      rw [floodFillLoop_cons, floodFillLoop_cons]
      by_cases hguard : 1000 ≤ filled
      · rw [if_pos hguard, if_pos hguard]
      · rw [if_neg hguard, if_neg hguard]
        by_cases hv : c ∈ visited
        · rw [if_pos hv, if_pos hv]
          apply ih
          simp only [List.length_cons] at h
          omega
        · rw [if_neg hv, if_neg hv]
          by_cases hcol : s c ≠ t
          · rw [if_pos hcol, if_pos hcol]
            apply ih
            simp only [List.length_cons] at h
            omega
          · rw [if_neg hcol, if_neg hcol]
            apply ih
            have hpush : (((getNeighbors2d g c).filter
                (fun x => decide (¬ x ∈ c :: visited))).reverse).length ≤ 6 := by
              rw [List.length_reverse]
              exact le_trans (List.length_filter_le _ _) (getNeighbors2d_length_le g c)
            simp only [List.length_append, List.length_cons] at h ⊢
            omega

/-- The top-level fuel `7001` of `floodFill2d` is sufficient: any additional
fuel yields the same store, so the fuel-based embedding computes the exact
result of the source's `while` loop. -/
lemma floodFill2d_fuel_sufficient (g : ℤ) (S0 : Store2) (c1 c2 : ℤ)
    (t f : Option String) (hne : t ≠ f) (extra : ℕ) :
    floodFillLoop g t f (7001 + extra) S0 [] [(c1, c2)] 0 =
      floodFill2d g S0 c1 c2 t f := by
  induction extra with
  | zero =>
    unfold floodFill2d
    rw [if_neg hne]
  | succ m ihm =>
    have hst := floodFillLoop_fuel_stable g t f (7001 + m) S0 [] [(c1, c2)] 0
      (by rw [List.length_singleton]; omega)
    calc floodFillLoop g t f (7001 + m + 1) S0 [] [(c1, c2)] 0
        = floodFillLoop g t f (7001 + m) S0 [] [(c1, c2)] 0 := hst
      _ = floodFill2d g S0 c1 c2 t f := ihm
